import Mathlib

/-!
Forecise: verification of the consensus / movement / ingestion core.

Shallow embedding of the `forecise` repository (Rust) into Lean 4.

Conventions of the embedding:
* `f64` arithmetic is modelled by real arithmetic (`ℝ`); the source-code functions
  `ln`, `log10`, `sqrt`, `clamp`, `min`, `max` become `Real.log`,
  `Real.logb 10`, `Real.sqrt`, `clamp`, `min`, `max`.  Where a piece of code
  uses no transcendental function (Brier scores, the movement detector, the
  adapters, slugs) we embed with `ℚ`, which contains every `f64` value, so
  the definitions stay executable.
* `i32` / `i64` become `ℤ`, `usize` becomes `ℕ`, `Option<T>` becomes
  `Option T`, `anyhow::Result<T>` becomes `Except String T`.
* Database rows fetched or inserted are modelled as lists/records; an
  inserted row is represented by the argument tuple of the insert.
-/

/-- Rust `f64::clamp(lo, hi)` (for `lo ≤ hi`). -/
noncomputable def clamp (x lo hi : ℝ) : ℝ := min (max x lo) hi

/- ------------------------------------------------------------------ -/
/- crates/consensus/src/engine.rs                                      -/
/- ------------------------------------------------------------------ -/

/-- Model of `engine.rs` lines 13-21: the input of one source to the consensus calculation. -/
structure SourceInput where
  source_id : String
  source_name : String
  probability : ℝ
  accuracy_pct : Option ℝ
  resolved_count : ℤ
  volume : Option ℝ

/-- Model of `engine.rs` lines 40-47. -/
structure SourceWeight where
  source_id : String
  source_name : String
  probability : ℝ
  weight : ℝ
  accuracy_pct : Option ℝ

/-- Model of `engine.rs` lines 49-55. -/
structure OutlierSource where
  source_id : String
  source_name : String
  probability : ℝ
  deviation : ℝ

/-- Model of `engine.rs` lines 24-38: the result of a consensus calculation. -/
structure ConsensusResult where
  probability : ℝ
  confidence : ℝ
  agreement : ℝ
  source_count : ℕ
  weights : List SourceWeight
  outliers : List OutlierSource

/-- Model of `engine.rs` line 58. -/
def MIN_RESOLVED_FOR_ACCURACY : ℤ := 30

/-- Model of `engine.rs` line 61. -/
def OUTLIER_THRESHOLD : ℝ := 0.15

/-- Model of `engine.rs` lines 146-157: the raw (un-normalized) weight of one source. -/
noncomputable def rawWeight (s : SourceInput) : ℝ :=
  if s.resolved_count ≥ MIN_RESOLVED_FOR_ACCURACY then
    let accuracy := s.accuracy_pct.getD 50 / 100
    let volume_boost := max (Real.log (s.resolved_count : ℝ)) 1 / 5
    accuracy * (1 + volume_boost)
  else
    0.5

/-- Model of `engine.rs` lines 144-167: `calculate_weights`, normalized to sum 1
(uniform `1/n` fallback when the raw weights sum to 0). -/
noncomputable def calculate_weights (sources : List SourceInput) : List ℝ :=
  let raw_weights := sources.map rawWeight
  let sum := raw_weights.sum
  if sum = 0 then
    List.replicate sources.length (1 / (sources.length : ℝ))
  else
    raw_weights.map (fun w => w / sum)

/-- Model of `engine.rs` lines 174-205: `calculate_confidence`. -/
noncomputable def calculate_confidence (sources : List SourceInput) (agreement : ℝ) : ℝ :=
  let count_factor := min ((sources.length : ℝ) / 5) 1
  let accuracies := sources.filterMap (fun s => s.accuracy_pct)
  let accuracy_factor :=
    if accuracies = [] then 0.5
    else min (accuracies.sum / (accuracies.length : ℝ) / 100) 1
  let total_volume := (sources.filterMap (fun s => s.volume)).sum
  let volume_factor :=
    if total_volume > 0 then clamp (Real.logb 10 total_volume / 7) 0 1
    else 0.3
  clamp (0.25 * count_factor + 0.30 * agreement
      + 0.25 * accuracy_factor + 0.20 * volume_factor) 0 1

/-- Model of `engine.rs` lines 91-94 (step 2): the weighted average. -/
noncomputable def consensusProb (sources : List SourceInput) : ℝ :=
  ((sources.zip (calculate_weights sources)).map
    (fun sw => sw.1.probability * sw.2)).sum

/-- Model of `engine.rs` lines 97-100 (step 3): weighted variance around the mean. -/
noncomputable def consensusVariance (sources : List SourceInput) : ℝ :=
  ((sources.zip (calculate_weights sources)).map
    (fun sw => sw.2 * (sw.1.probability - consensusProb sources) ^ 2)).sum

/-- Model of `engine.rs` line 101 (step 3): agreement. -/
noncomputable def consensusAgreement (sources : List SourceInput) : ℝ :=
  max (1 - min (Real.sqrt (consensusVariance sources)) 1) 0

/-- Model of `engine.rs` lines 104-115 (step 4): outlier detection. -/
noncomputable def consensusOutliers (sources : List SourceInput) : List OutlierSource :=
  sources.filterMap (fun s =>
    if |s.probability - consensusProb sources| > OUTLIER_THRESHOLD then
      some ⟨s.source_id, s.source_name, s.probability,
            |s.probability - consensusProb sources|⟩
    else none)

/-- Model of `engine.rs` lines 87-139: the multi-source path of `calculate_consensus`. -/
noncomputable def consensusMulti (sources : List SourceInput) : ConsensusResult :=
  { probability := clamp (consensusProb sources) 0 1
    confidence := calculate_confidence sources (consensusAgreement sources)
    agreement := consensusAgreement sources
    source_count := sources.length
    weights := (sources.zip (calculate_weights sources)).map
      (fun sw => ⟨sw.1.source_id, sw.1.source_name, sw.1.probability,
                  sw.2, sw.1.accuracy_pct⟩)
    outliers := consensusOutliers sources }

/-- Model of `engine.rs` lines 69-85: the single-source shortcut. -/
noncomputable def singleResult (s : SourceInput) : ConsensusResult :=
  { probability := s.probability
    confidence := 0.3
    agreement := 1
    source_count := 1
    weights := [⟨s.source_id, s.source_name, s.probability, 1, s.accuracy_pct⟩]
    outliers := [] }

def emptySourcesMsg : String := "No sources provided for consensus calculation"

/-- Model of `engine.rs` lines 64-140: `calculate_consensus`. -/
noncomputable def calculate_consensus (sources : List SourceInput) :
    Except String ConsensusResult :=
  match sources with
  | [] => Except.error emptySourcesMsg
  | [s] => Except.ok (singleResult s)
  | _ :: _ :: _ => Except.ok (consensusMulti sources)

/- Basic structural lemmas about the weights. -/

theorem calculate_weights_length (sources : List SourceInput) :
    (calculate_weights sources).length = sources.length := by
  unfold calculate_weights
  by_cases h : (sources.map rawWeight).sum = 0 <;> simp [h]

theorem calculate_weights_sum (sources : List SourceInput) (h : sources ≠ []) :
    (calculate_weights sources).sum = 1 := by
  have hn : (sources.length : ℝ) ≠ 0 :=
    Nat.cast_ne_zero.mpr (List.length_pos.mpr h).ne'
  unfold calculate_weights
  by_cases hs : (sources.map rawWeight).sum = 0
  · simp only [hs, if_pos rfl, List.sum_replicate, nsmul_eq_mul]
    field_simp
  · simp only [if_neg hs]
    rw [show (fun w => w / (sources.map rawWeight).sum)
        = (fun w => w * ((sources.map rawWeight).sum)⁻¹) from by
      funext w; rw [div_eq_mul_inv]]
    rw [List.map_map]
    rw [show ((fun w => w * ((sources.map rawWeight).sum)⁻¹) ∘ rawWeight)
        = (fun s => rawWeight s * ((sources.map rawWeight).sum)⁻¹) from rfl]
    rw [List.sum_map_mul_right]
    exact mul_inv_cancel₀ hs

theorem clamp_le (x lo hi : ℝ) : clamp x lo hi ≤ hi := min_le_right _ _

theorem le_clamp (x lo hi : ℝ) (h : lo ≤ hi) : lo ≤ clamp x lo hi :=
  le_min (le_max_right _ _) h

theorem clamp_of_mem (x lo hi : ℝ) (h1 : lo ≤ x) (h2 : x ≤ hi) :
    clamp x lo hi = x := by
  unfold clamp
  rw [max_eq_left h1, min_eq_left h2]

theorem zip_map_snd_sum (l1 : List SourceInput) (l2 : List ℝ)
    (h : l2.length ≤ l1.length) :
    ((l1.zip l2).map (fun sw => sw.2)).sum = l2.sum := by
  rw [show (fun sw : SourceInput × ℝ => sw.2) = Prod.snd from rfl,
    List.map_snd_zip l1 l2 h]

theorem consensusMulti_weights_sum (sources : List SourceInput)
    (h : sources ≠ []) :
    (((consensusMulti sources).weights).map SourceWeight.weight).sum = 1 := by
  unfold consensusMulti
  rw [List.map_map]
  rw [show (SourceWeight.weight ∘ fun sw : SourceInput × ℝ =>
      (⟨sw.1.source_id, sw.1.source_name, sw.1.probability, sw.2,
        sw.1.accuracy_pct⟩ : SourceWeight)) = (fun sw => sw.2) from rfl]
  rw [zip_map_snd_sum _ _ (le_of_eq (calculate_weights_length sources))]
  exact calculate_weights_sum sources h

/-- C1: for every non-empty list of `SourceInput` whose probabilities lie in
`[0,1]`, whose `accuracy_pct` values (when present) lie in `[0,100]` and whose
`resolved_count` values are non-negative, `calculate_consensus` succeeds and
the returned `ConsensusResult` satisfies `probability ∈ [0,1]`,
`confidence ∈ [0,1]`, `agreement ∈ [0,1]`, and its weights sum to 1 within
`1e-9`. -/
theorem C1_consensus_invariants (sources : List SourceInput)
    (hne : sources ≠ [])
    (hp : ∀ s ∈ sources, 0 ≤ s.probability ∧ s.probability ≤ 1)
    (ha : ∀ s ∈ sources, ∀ a ∈ s.accuracy_pct, 0 ≤ a ∧ a ≤ 100)
    (hr : ∀ s ∈ sources, 0 ≤ s.resolved_count) :
    ∃ r, calculate_consensus sources = Except.ok r ∧
      (0 ≤ r.probability ∧ r.probability ≤ 1) ∧
      (0 ≤ r.confidence ∧ r.confidence ≤ 1) ∧
      (0 ≤ r.agreement ∧ r.agreement ≤ 1) ∧
      |(r.weights.map SourceWeight.weight).sum - 1| ≤ 1e-9 := by
  match sources, hne with
  | [s], _ =>
    refine ⟨singleResult s, rfl, ?_, ?_, ?_, ?_⟩
    · exact hp s (by simp)
    · constructor <;> norm_num [singleResult]
    · constructor <;> norm_num [singleResult]
    · norm_num [singleResult]
  | a :: b :: t, _ =>
    refine ⟨consensusMulti (a :: b :: t), rfl, ?_, ?_, ?_, ?_⟩
    · exact ⟨le_clamp _ _ _ zero_le_one, clamp_le _ _ _⟩
    · exact ⟨le_clamp _ _ _ zero_le_one, clamp_le _ _ _⟩
    · refine ⟨le_max_right _ _, max_le ?_ zero_le_one⟩
      have h0 : (0:ℝ) ≤ min (Real.sqrt (consensusVariance (a :: b :: t))) 1 :=
        le_min (Real.sqrt_nonneg _) zero_le_one
      show 1 - min (Real.sqrt (consensusVariance (a :: b :: t))) 1 ≤ 1
      linarith
    · rw [consensusMulti_weights_sum _ (by simp)]
      norm_num

def srcNameA : String := "alpha"

def srcNameB : String := "beta"

noncomputable def c1Input : List SourceInput :=
  [⟨srcNameA, srcNameA, 1/2, none, 0, none⟩]

theorem C1_consensus_invariants_witness :
    c1Input ≠ [] ∧
    (∀ s ∈ c1Input, 0 ≤ s.probability ∧ s.probability ≤ 1) ∧
    (∀ s ∈ c1Input, ∀ a ∈ s.accuracy_pct, 0 ≤ a ∧ a ≤ 100) ∧
    (∀ s ∈ c1Input, 0 ≤ s.resolved_count) ∧
    (∃ r, calculate_consensus c1Input = Except.ok r ∧
      (0 ≤ r.probability ∧ r.probability ≤ 1) ∧
      (0 ≤ r.confidence ∧ r.confidence ≤ 1) ∧
      (0 ≤ r.agreement ∧ r.agreement ≤ 1) ∧
      |(r.weights.map SourceWeight.weight).sum - 1| ≤ 1e-9) := by
  have h1 : c1Input ≠ [] := by simp [c1Input]
  have h2 : ∀ s ∈ c1Input, 0 ≤ s.probability ∧ s.probability ≤ 1 := by
    intro s hs
    simp only [c1Input, List.mem_singleton] at hs
    subst hs
    norm_num
  have h3 : ∀ s ∈ c1Input, ∀ a ∈ s.accuracy_pct, 0 ≤ a ∧ a ≤ 100 := by
    intro s hs a hA
    simp only [c1Input, List.mem_singleton] at hs
    subst hs
    simp at hA
  have h4 : ∀ s ∈ c1Input, 0 ≤ s.resolved_count := by
    intro s hs
    simp only [c1Input, List.mem_singleton] at hs
    subst hs
    norm_num
  exact ⟨h1, h2, h3, h4, C1_consensus_invariants c1Input h1 h2 h3 h4⟩

/-- Raw weight as the spec states it (§4.3 step 2):
`raw = (accuracy_pct.or(50)/100) · (1 + max(1, ln(resolved_count))/5)` when
`resolved_count ≥ 30`, else `0.5`. -/
noncomputable def specRawWeight (s : SourceInput) : ℝ :=
  if 30 ≤ s.resolved_count then
    (s.accuracy_pct.getD 50 / 100)
      * (1 + max 1 (Real.log (s.resolved_count : ℝ)) / 5)
  else
    0.5

theorem rawWeight_eq_spec (s : SourceInput) : rawWeight s = specRawWeight s := by
  unfold rawWeight specRawWeight MIN_RESOLVED_FOR_ACCURACY
  rw [max_comm]

/-- C2: for every list of two or more `SourceInput`, `calculate_weights`
assigns each input the raw weight from the spec (accuracy over 100 times a
logarithmic boost when `resolved_count ≥ 30`, a flat `0.5` otherwise), and
returns the raw weights divided by their sum `S` when `S > 0`, and the
uniform weights `1/n` when `S = 0`. -/
theorem C2_calculate_weights (sources : List SourceInput)
    (h2 : 2 ≤ sources.length) :
    (0 < (sources.map specRawWeight).sum →
      calculate_weights sources = (sources.map specRawWeight).map
        (fun w => w / (sources.map specRawWeight).sum)) ∧
    ((sources.map specRawWeight).sum = 0 →
      calculate_weights sources
        = List.replicate sources.length (1 / (sources.length : ℝ))) := by
  have he : sources.map rawWeight = sources.map specRawWeight :=
    List.map_congr_left (fun s _ => rawWeight_eq_spec s)
  constructor
  · intro hpos
    unfold calculate_weights
    rw [he, if_neg hpos.ne']
  · intro hzero
    unfold calculate_weights
    rw [he, if_pos hzero]

noncomputable def c2Input : List SourceInput :=
  [⟨srcNameA, srcNameA, 1/2, none, 0, none⟩,
   ⟨srcNameB, srcNameB, 3/5, none, 0, none⟩]

theorem C2_calculate_weights_witness :
    2 ≤ c2Input.length ∧
    ((0 < (c2Input.map specRawWeight).sum →
      calculate_weights c2Input = (c2Input.map specRawWeight).map
        (fun w => w / (c2Input.map specRawWeight).sum)) ∧
    ((c2Input.map specRawWeight).sum = 0 →
      calculate_weights c2Input
        = List.replicate c2Input.length (1 / (c2Input.length : ℝ)))) :=
  ⟨by simp [c2Input], C2_calculate_weights c2Input (by simp [c2Input])⟩

/- Lemmas for the all-sources-agree scenario (spec §8 invariant 2). -/

theorem consensusProb_all_equal (sources : List SourceInput) (p : ℝ)
    (hne : sources ≠ []) (hall : ∀ s ∈ sources, s.probability = p) :
    consensusProb sources = p := by
  unfold consensusProb
  rw [List.map_congr_left (g := fun sw : SourceInput × ℝ => p * sw.2)
    (fun sw hsw => by rw [hall sw.1 (List.of_mem_zip hsw).1])]
  rw [show (fun sw : SourceInput × ℝ => p * sw.2)
      = (fun x => p * x) ∘ (fun sw : SourceInput × ℝ => sw.2) from rfl]
  rw [← List.map_map, List.sum_map_mul_left, List.map_id']
  rw [zip_map_snd_sum _ _ (le_of_eq (calculate_weights_length sources)),
    calculate_weights_sum sources hne, mul_one]

theorem consensusVariance_all_equal (sources : List SourceInput) (p : ℝ)
    (hne : sources ≠ []) (hall : ∀ s ∈ sources, s.probability = p) :
    consensusVariance sources = 0 := by
  unfold consensusVariance
  rw [List.map_congr_left (g := fun _ : SourceInput × ℝ => (0:ℝ))
    (fun sw hsw => by
      rw [hall sw.1 (List.of_mem_zip hsw).1,
        consensusProb_all_equal sources p hne hall]
      ring)]
  simp

/-- C5: for every list of two or more `SourceInput` whose probabilities all
equal the same `p ∈ [0,1]`, `calculate_consensus` returns `probability = p`,
`agreement = 1` and an empty outlier list. -/
theorem C5_all_sources_agree (sources : List SourceInput)
    (h2 : 2 ≤ sources.length) (p : ℝ) (hp0 : 0 ≤ p) (hp1 : p ≤ 1)
    (hall : ∀ s ∈ sources, s.probability = p) :
    ∃ r, calculate_consensus sources = Except.ok r ∧
      r.probability = p ∧ r.agreement = 1 ∧ r.outliers = [] := by
  match sources, h2 with
  | a :: b :: t, _ =>
    have hne : (a :: b :: t : List SourceInput) ≠ [] := by simp
    refine ⟨consensusMulti (a :: b :: t), rfl, ?_, ?_, ?_⟩
    · show clamp (consensusProb (a :: b :: t)) 0 1 = p
      rw [consensusProb_all_equal _ p hne hall, clamp_of_mem _ _ _ hp0 hp1]
    · show consensusAgreement (a :: b :: t) = 1
      unfold consensusAgreement
      rw [consensusVariance_all_equal _ p hne hall]
      simp
    · show consensusOutliers (a :: b :: t) = []
      unfold consensusOutliers
      rw [List.filterMap_eq_nil_iff]
      intro s hs
      rw [if_neg]
      rw [hall s hs, consensusProb_all_equal _ p hne hall]
      norm_num [OUTLIER_THRESHOLD]

noncomputable def c5Input : List SourceInput :=
  [⟨srcNameA, srcNameA, 2/5, none, 0, none⟩,
   ⟨srcNameB, srcNameB, 2/5, none, 0, none⟩]

theorem C5_all_sources_agree_witness :
    2 ≤ c5Input.length ∧ (0:ℝ) ≤ 2/5 ∧ (2:ℝ)/5 ≤ 1 ∧
    (∀ s ∈ c5Input, s.probability = 2/5) ∧
    (∃ r, calculate_consensus c5Input = Except.ok r ∧
      r.probability = 2/5 ∧ r.agreement = 1 ∧ r.outliers = []) := by
  have hall : ∀ s ∈ c5Input, s.probability = 2/5 := by
    intro s hs
    simp only [c5Input, List.mem_cons, List.mem_singleton,
      List.not_mem_nil, or_false] at hs
    rcases hs with h | h <;> subst h <;> rfl
  exact ⟨by simp [c5Input], by norm_num, by norm_num, hall,
    C5_all_sources_agree c5Input (by simp [c5Input]) (2/5)
      (by norm_num) (by norm_num) hall⟩

/-- Confidence as the claim states it (spec §4.3 step 7, verbatim): volume
factor `min(1, log₁₀(Σvolume)/7)` when `Σvolume > 0` (else `0.3`), accuracy
factor the plain mean of known `accuracy_pct/100` (`0.5` when none known). -/
noncomputable def specConfidence (sources : List SourceInput) (a : ℝ) : ℝ :=
  let c := min 1 ((sources.length : ℝ) / 5)
  let accs := sources.filterMap (fun s => s.accuracy_pct)
  let accuracy := if accs = [] then 0.5 else accs.sum / (accs.length : ℝ) / 100
  let vol := (sources.filterMap (fun s => s.volume)).sum
  let volume := if vol > 0 then min 1 (Real.logb 10 vol / 7) else 0.3
  clamp (0.25 * c + 0.30 * a + 0.25 * accuracy + 0.20 * volume) 0 1

/-- Confidence as the code computes it, phrased in the vocabulary of the spec:
the volume factor is `clamp(log₁₀(Σvolume)/7, 0, 1)` (not a one-sided `min`)
and the accuracy factor is capped at 1. -/
noncomputable def specConfidenceAmended (sources : List SourceInput) (a : ℝ) : ℝ :=
  let c := min 1 ((sources.length : ℝ) / 5)
  let accs := sources.filterMap (fun s => s.accuracy_pct)
  let accuracy :=
    if accs = [] then 0.5 else min 1 (accs.sum / (accs.length : ℝ) / 100)
  let vol := (sources.filterMap (fun s => s.volume)).sum
  let volume := if vol > 0 then clamp (Real.logb 10 vol / 7) 0 1 else 0.3
  clamp (0.25 * c + 0.30 * a + 0.25 * accuracy + 0.20 * volume) 0 1

theorem calculate_confidence_eq_amended (sources : List SourceInput) (a : ℝ) :
    calculate_confidence sources a = specConfidenceAmended sources a := by
  unfold calculate_confidence specConfidenceAmended
  dsimp only
  rw [min_comm ((sources.length : ℝ) / 5) 1]
  by_cases hacc : sources.filterMap (fun s => s.accuracy_pct) = []
  · rw [if_pos hacc, if_pos hacc]
  · rw [if_neg hacc, if_neg hacc,
      min_comm ((sources.filterMap (fun s => s.accuracy_pct)).sum
        / ((sources.filterMap (fun s => s.accuracy_pct)).length : ℝ) / 100) 1]

/-- Counterexample input for C3: two agreeing accuracy-free sources, total
volume `10⁻⁷` dollars (positive but below one dollar). -/
noncomputable def cexC3 : List SourceInput :=
  [⟨srcNameA, srcNameA, 1/2, none, 0, some (((10:ℝ) ^ 7)⁻¹)⟩,
   ⟨srcNameB, srcNameB, 1/2, none, 0, none⟩]

theorem cexC3_agreement : consensusAgreement cexC3 = 1 := by
  unfold consensusAgreement
  rw [consensusVariance_all_equal cexC3 (1/2) (by simp [cexC3]) (by
    intro s hs
    simp only [cexC3, List.mem_cons, List.mem_singleton,
      List.not_mem_nil, or_false] at hs
    rcases hs with h | h <;> subst h <;> rfl)]
  simp

theorem cexC3_logb : Real.logb 10 (((10:ℝ) ^ 7)⁻¹) = -7 := by
  rw [Real.logb_inv, Real.logb_pow, Real.logb_self_eq_one (by norm_num)]
  norm_num

theorem clamp_neg_unit : clamp ((-7:ℝ)/7) 0 1 = 0 := by
  unfold clamp
  rw [max_eq_right (by norm_num), min_eq_left (by norm_num)]

theorem cexC3_confidence : calculate_confidence cexC3 1 = 21/40 := by
  have hv : ((10:ℝ) ^ 7)⁻¹ > 0 := by positivity
  unfold calculate_confidence cexC3
  simp only [List.filterMap_cons, List.filterMap_nil, List.sum_cons,
    List.sum_nil, add_zero, List.length_cons, List.length_nil,
    eq_self_iff_true, if_true]
  rw [if_pos hv, cexC3_logb, clamp_neg_unit,
    min_eq_left (by norm_num), clamp_of_mem _ _ _ (by norm_num) (by norm_num)]
  norm_num

theorem cexC3_specConfidence : specConfidence cexC3 1 = 13/40 := by
  have hv : ((10:ℝ) ^ 7)⁻¹ > 0 := by positivity
  unfold specConfidence cexC3
  simp only [List.filterMap_cons, List.filterMap_nil, List.sum_cons,
    List.sum_nil, add_zero, List.length_cons, List.length_nil,
    eq_self_iff_true, if_true]
  rw [if_pos hv, cexC3_logb,
    min_eq_right (by norm_num), min_eq_right (by norm_num),
    clamp_of_mem _ _ _ (by norm_num) (by norm_num)]
  norm_num

/-- C3 counterexample: on `cexC3` the consensus run of the code returns
`agreement = 1` and `confidence = 21/40 = 0.525`, while the formula of the claim
(with volume factor `min(1, log₁₀(Σvolume)/7)`) yields `13/40 = 0.325`. -/
theorem C3_confidence_counterexample :
    (calculate_consensus cexC3).map ConsensusResult.agreement = Except.ok 1 ∧
    (calculate_consensus cexC3).map ConsensusResult.confidence
      = Except.ok (21/40) ∧
    specConfidence cexC3 1 = 13/40 ∧ ((21:ℝ)/40) ≠ 13/40 := by
  have hrun : calculate_consensus cexC3 = Except.ok (consensusMulti cexC3) := rfl
  refine ⟨?_, ?_, cexC3_specConfidence, by norm_num⟩
  · rw [hrun]
    show Except.ok (consensusMulti cexC3).agreement = Except.ok 1
    rw [show (consensusMulti cexC3).agreement = consensusAgreement cexC3 from rfl,
      cexC3_agreement]
  · rw [hrun]
    show Except.ok (consensusMulti cexC3).confidence = Except.ok (21/40)
    rw [show (consensusMulti cexC3).confidence
        = calculate_confidence cexC3 (consensusAgreement cexC3) from rfl,
      cexC3_agreement, cexC3_confidence]

/-- C3 (amended): for every list of two or more `SourceInput`, the confidence
of the returned `ConsensusResult` equals
`clamp(0.25·c + 0.30·a + 0.25·accuracy + 0.20·volume, 0, 1)` where `c` and
`a` are as the claim states them, the accuracy factor is the mean of the
known `accuracy_pct` values over 100 **capped at 1** (0.5 if none known), and
the volume factor is `clamp(log₁₀(Σvolume)/7, 0, 1)` when `Σvolume > 0` and
`0.3` otherwise. -/
theorem C3_confidence_amended (sources : List SourceInput)
    (h2 : 2 ≤ sources.length) :
    (calculate_consensus sources).map ConsensusResult.confidence
      = (calculate_consensus sources).map
        (fun r => specConfidenceAmended sources r.agreement) := by
  match sources, h2 with
  | a :: b :: t, _ =>
    have hrun : calculate_consensus (a :: b :: t)
        = Except.ok (consensusMulti (a :: b :: t)) := rfl
    rw [hrun]
    show Except.ok (calculate_confidence (a :: b :: t)
        (consensusAgreement (a :: b :: t)))
      = Except.ok (specConfidenceAmended (a :: b :: t)
        (consensusAgreement (a :: b :: t)))
    rw [calculate_confidence_eq_amended]

theorem C3_confidence_amended_witness :
    2 ≤ cexC3.length ∧
    (calculate_consensus cexC3).map ConsensusResult.confidence
      = (calculate_consensus cexC3).map
        (fun r => specConfidenceAmended cexC3 r.agreement) :=
  ⟨by simp [cexC3], C3_confidence_amended cexC3 (by simp [cexC3])⟩

/- ------------------------------------------------------------------ -/
/- crates/consensus/src/brier.rs                                       -/
/- ------------------------------------------------------------------ -/

/-- Model of `brier.rs` lines 13-15: Brier score of a single prediction. -/
def brier_score_single (predicted actual : ℚ) : ℚ := (predicted - actual) ^ 2

/-- Model of `brier.rs` lines 18-28: average Brier score, `none` on empty input. -/
def brier_score_average (predictions : List (ℚ × ℚ)) : Option ℚ :=
  if predictions = [] then none
  else some ((predictions.map
    (fun pa => brier_score_single pa.1 pa.2)).sum / (predictions.length : ℚ))

/-- Model of `brier.rs` lines 33-35: accuracy percentage from a Brier score. -/
def brier_to_accuracy_pct (brier_score : ℚ) : ℚ :=
  min (max ((1 - brier_score) * 100) 0) 100

/-- C6: for every predicted probability `p ∈ [0,1]` and outcome in `{0,1}`,
`brier_score_single p outcome` equals `(p − outcome)²`, lies in `[0,1]`, and
is zero exactly when the prediction was perfect (`p` equals the outcome). -/
theorem C6_brier_single (p o : ℚ) (hp0 : 0 ≤ p) (hp1 : p ≤ 1)
    (ho : o = 0 ∨ o = 1) :
    brier_score_single p o = (p - o) ^ 2 ∧
    0 ≤ brier_score_single p o ∧ brier_score_single p o ≤ 1 ∧
    (brier_score_single p o = 0 ↔ p = o) := by
  refine ⟨rfl, sq_nonneg _, ?_, ?_⟩
  · unfold brier_score_single
    rcases ho with h | h <;> subst h <;> nlinarith
  · unfold brier_score_single
    rw [sq_eq_zero_iff, sub_eq_zero]

theorem C6_brier_single_witness :
    (0:ℚ) ≤ 3/10 ∧ (3:ℚ)/10 ≤ 1 ∧ ((1:ℚ) = 0 ∨ (1:ℚ) = 1) ∧
    (brier_score_single (3/10) 1 = ((3:ℚ)/10 - 1) ^ 2 ∧
     0 ≤ brier_score_single (3/10) 1 ∧ brier_score_single (3/10) 1 ≤ 1 ∧
     (brier_score_single (3/10) 1 = 0 ↔ (3:ℚ)/10 = 1)) :=
  ⟨by norm_num, by norm_num, Or.inr rfl,
   C6_brier_single (3/10) 1 (by norm_num) (by norm_num) (Or.inr rfl)⟩

/- ------------------------------------------------------------------ -/
/- crates/workers/src/movement.rs                                      -/
/- ------------------------------------------------------------------ -/

/-- Model of `movement.rs` line 13 (the doc comment on line 12 says 15%, the constant
is 0.05). -/
def MOVEMENT_THRESHOLD : ℚ := 0.05

/-- Model of `movement.rs` lines 89-95: one row of the detector query.  UUIDs are
modelled as `ℕ`; the `BigDecimal` probabilities as `ℚ`. -/
structure MovementCheck where
  source_market_id : ℕ
  market_id : Option ℕ
  current_probability : Option ℚ
  previous_probability : Option ℚ

/-- A `movement_events` row, as inserted by `movement.rs` lines 59-73.
The decimal re-formatting (`{:.4}`/`{:.6}`) of the stored values is not
modelled; values are kept exact. -/
structure MovementEvent where
  source_market_id : ℕ
  market_id : ℕ
  probability_before : ℚ
  probability_after : ℚ
  change_pct : ℚ

/-- Model of `movement.rs` lines 26-33: the correlated subquery that fetches the
second-most-recent `odds_history` probability (`ORDER BY time DESC OFFSET 1
LIMIT 1`).  `odds` is the history of the market, most recent first. -/
def previous_from_history (odds : List ℚ) : Option ℚ := (odds.drop 1).head?

/-- Model of `movement.rs` lines 43-83: the per-market body of `detect_movements`:
parse the current probability (default 0), default the baseline to the
current value, and insert an event iff the absolute change reaches the
threshold and the market has a unified `market_id`. -/
def detect_movement (m : MovementCheck) : Option MovementEvent :=
  let current := m.current_probability.getD 0
  let previous := m.previous_probability.getD current
  let change := |current - previous|
  if change ≥ MOVEMENT_THRESHOLD then
    match m.market_id with
    | some market_id =>
      some ⟨m.source_market_id, market_id, previous, current, change⟩
    | none => none
  else
    none

/-- Model of `movement.rs` lines 16-87: number of events inserted in one pass. -/
def detect_movements (markets : List MovementCheck) : ℕ :=
  (markets.filterMap detect_movement).length

/-- C4: for a detector row with a non-null current probability `p_now`, a
non-null unified `market_id`, and the second-most-recent history point
`p_prev` as baseline, a `MovementEvent` is inserted iff
`|p_now − p_prev| ≥ 0.05`; in particular a delta of exactly `0.05`
triggers. -/
theorem C4_movement_threshold (m : MovementCheck) (p_now p_prev : ℚ)
    (odds : List ℚ)
    (hc : m.current_probability = some p_now)
    (hm : m.market_id.isSome)
    (hbase : previous_from_history odds = some p_prev)
    (hp : m.previous_probability = previous_from_history odds) :
    ((detect_movement m).isSome ↔ 5/100 ≤ |p_now - p_prev|) := by
  obtain ⟨mid, hmid⟩ := Option.isSome_iff_exists.mp hm
  unfold detect_movement
  rw [hc, hp, hbase, hmid]
  simp only [Option.getD_some]
  by_cases h : |p_now - p_prev| ≥ MOVEMENT_THRESHOLD
  · rw [if_pos h]
    simp only [Option.isSome_some, true_iff]
    exact le_trans (by norm_num [MOVEMENT_THRESHOLD]) h
  · rw [if_neg h]
    simp only [Option.isSome_none, Bool.false_eq_true, false_iff]
    intro hcon
    exact h (le_trans (by norm_num [MOVEMENT_THRESHOLD]) hcon)

theorem C4_movement_threshold_witness :
    (MovementCheck.mk 1 (some 2) (some (11/20)) (some (1/2))).current_probability
        = some (11/20) ∧
    (MovementCheck.mk 1 (some 2) (some (11/20)) (some (1/2))).market_id.isSome ∧
    previous_from_history [11/20, 1/2] = some (1/2) ∧
    (MovementCheck.mk 1 (some 2) (some (11/20)) (some (1/2))).previous_probability
        = previous_from_history [11/20, 1/2] ∧
    ((detect_movement (MovementCheck.mk 1 (some 2) (some (11/20)) (some (1/2)))).isSome
      ↔ 5/100 ≤ |(11:ℚ)/20 - 1/2|) :=
  ⟨rfl, rfl, rfl, rfl,
   C4_movement_threshold _ (11/20) (1/2) [11/20, 1/2] rfl rfl rfl rfl⟩

/-- C10: a detector row whose market has fewer than two history points has a
null baseline; the detector then treats the baseline as the current value,
computes a zero delta, and inserts nothing. -/
theorem C10_short_history_no_event (m : MovementCheck) (odds : List ℚ)
    (hlen : odds.length < 2)
    (hc : m.current_probability.isSome)
    (hm : m.market_id.isSome)
    (hp : m.previous_probability = previous_from_history odds) :
    m.previous_probability = none ∧ detect_movement m = none := by
  have hnone : previous_from_history odds = none := by
    unfold previous_from_history
    rw [List.head?_eq_none_iff, List.drop_eq_nil_iff]
    omega
  have hpn : m.previous_probability = none := hp.trans hnone
  refine ⟨hpn, ?_⟩
  unfold detect_movement
  rw [hpn]
  simp only [Option.getD_none]
  rw [if_neg]
  rw [sub_self, abs_zero]
  norm_num [MOVEMENT_THRESHOLD]

theorem C10_short_history_no_event_witness :
    [(7:ℚ)/10].length < 2 ∧
    (MovementCheck.mk 1 (some 2) (some (7/10)) none).current_probability.isSome ∧
    (MovementCheck.mk 1 (some 2) (some (7/10)) none).market_id.isSome ∧
    (MovementCheck.mk 1 (some 2) (some (7/10)) none).previous_probability
      = previous_from_history [(7:ℚ)/10] ∧
    ((MovementCheck.mk 1 (some 2) (some (7/10)) none).previous_probability = none ∧
      detect_movement (MovementCheck.mk 1 (some 2) (some (7/10)) none) = none) :=
  ⟨by norm_num, rfl, rfl, rfl,
   C10_short_history_no_event _ [(7:ℚ)/10] (by norm_num) rfl rfl rfl⟩

/- ------------------------------------------------------------------ -/
/- crates/workers/src/sources/polymarket.rs & metaculus.rs: pagination -/
/- ------------------------------------------------------------------ -/

/-- Model of `polymarket.rs` lines 44-87: the fetch loop of `fetch_and_store`.  It has
no page cap: it requests pages of up to `limit = 100` markets and stops only
when a response is empty or shorter than the limit.  `pages` is the finite
sequence of responses the venue serves (after exhausting it the venue answers
with an empty page); the result counts page requests made in one tick. -/
def polymarketPagesFetched : List (List ℕ) → ℕ
  | [] => 1
  | page :: rest =>
    if page.isEmpty then 1
    else if page.length < 100 then 1
    else 1 + polymarketPagesFetched rest

/-- Model of `metaculus.rs` lines 86-110: the body of the `for _ in 0..5` loop of
`fetch_and_store`, which breaks when the payload carries no `next` cursor.
`responses i` is the answer of the venue to the number `i` request: the page of
question ids and the optional next-page URL. -/
def metaculusFetchLoop (responses : ℕ → List ℕ × Option String) :
    ℕ → ℕ → ℕ
  | 0, _ => 0
  | fuel + 1, i =>
    match (responses i).2 with
    | none => 1
    | some _ => 1 + metaculusFetchLoop responses fuel (i + 1)

/-- Model of `metaculus.rs` lines 79-113: page requests made in one tick. -/
def metaculusPagesFetched (responses : ℕ → List ℕ × Option String) : ℕ :=
  metaculusFetchLoop responses 5 0

theorem metaculusFetchLoop_le (responses : ℕ → List ℕ × Option String) :
    ∀ fuel i, metaculusFetchLoop responses fuel i ≤ fuel := by
  intro fuel
  induction fuel with
  | zero => intro i; simp [metaculusFetchLoop]
  | succ n ih =>
    intro i
    have hunf : metaculusFetchLoop responses (n + 1) i
        = match (responses i).2 with
          | none => 1
          | some _ => 1 + metaculusFetchLoop responses n (i + 1) := rfl
    rw [hunf]
    cases h : (responses i).2 with
    | none =>
      show 1 ≤ n + 1
      omega
    | some u =>
      show 1 + metaculusFetchLoop responses n (i + 1) ≤ n + 1
      have := ih (i + 1)
      omega

/-- C7 counterexample: a venue serving six full pages of 100 markets makes
the Polymarket fetch loop issue 7 page requests in a single tick, more than
the claimed hard cap of 5. -/
theorem C7_page_cap_counterexample :
    polymarketPagesFetched (List.replicate 6 (List.replicate 100 0)) = 7 ∧
    ¬ polymarketPagesFetched (List.replicate 6 (List.replicate 100 0)) ≤ 5 := by
  decide

/-- C7 (amended): the Metaculus fetch loop performs at most 5 page requests
per tick; the Polymarket fetch loop has no page cap — on a venue offering
only full pages of 100 it issues one request per page plus the final empty
page, exceeding any fixed cap. -/
theorem C7_page_caps_amended :
    (∀ responses : ℕ → List ℕ × Option String,
      metaculusPagesFetched responses ≤ 5) ∧
    (∀ pages : List (List ℕ), (∀ p ∈ pages, p.length = 100) →
      polymarketPagesFetched pages = pages.length + 1) := by
  constructor
  · intro responses
    exact metaculusFetchLoop_le responses 5 0
  · intro pages hfull
    induction pages with
    | nil => rfl
    | cons page rest ih =>
      have hlen : page.length = 100 := hfull page (by simp)
      unfold polymarketPagesFetched
      rw [if_neg (by simp [List.isEmpty_iff, ← List.length_eq_zero]; omega),
        if_neg (by omega),
        ih (fun p hp => hfull p (List.mem_cons_of_mem _ hp))]
      show 1 + (rest.length + 1) = rest.length + 1 + 1
      omega

theorem C7_page_caps_amended_witness :
    metaculusPagesFetched (fun _ => ([], none)) ≤ 5 ∧
    (∀ p ∈ List.replicate 6 (List.replicate 100 0), p.length = 100) ∧
    polymarketPagesFetched (List.replicate 6 (List.replicate 100 0))
      = (List.replicate 6 (List.replicate 100 0)).length + 1 :=
  ⟨C7_page_caps_amended.1 _, by decide, C7_page_caps_amended.2 _ (by decide)⟩

/- ------------------------------------------------------------------ -/
/- crates/workers/src/sources/: per-record processing                  -/
/- ------------------------------------------------------------------ -/

def binaryOutcomeTag : String := "BINARY"

def httpScheme : String := "http"

def manifoldUrlBase : String := "https://manifold.markets/"

def polymarketEventBase : String := "https://polymarket.com/event/"

def manifoldSourceSlug : String := "manifold"

def polymarketSourceSlug : String := "polymarket"

def emptyStr : String := ""

/-- Model of `manifold.rs` lines 12-26: a venue payload record. -/
structure ManifoldMarket where
  id : String
  question : Option String
  url : Option String
  probability : Option ℚ
  volume : Option ℚ
  total_liquidity : Option ℚ
  is_resolved : Option Bool
  outcome_type : Option String
  slug : Option String

/-- Model of `polymarket.rs` lines 13-29: a Gamma API payload record.
`outcome_prices` is the already-parsed price vector (the Rust field is a
JSON-encoded string; a first element that fails to parse behaves like an
absent one). -/
structure GammaMarket where
  condition_id : Option String
  question : Option String
  outcome_prices : Option (List ℚ)
  volume_num : Option ℚ
  liquidity_num : Option ℚ
  slug : Option String
  active : Option Bool
  closed : Option Bool
  question_id : Option String

/-- The argument tuple of `ingestion::upsert_source_market`
(`ingestion.rs`); returning `some` of it models that the record is persisted
(SourceMarket upsert + odds append), `none` that it is skipped. -/
structure UpsertArgs where
  source_slug : String
  external_id : String
  title : String
  probability : ℚ
  volume : Option ℚ
  external_url : Option String

/-- Model of `manifold.rs` lines 69-120: `process_market`.  Skips non-binary and
resolved records, then records lacking a question; otherwise persists. -/
def manifold_process_market (m : ManifoldMarket) : Option UpsertArgs :=
  if m.outcome_type ≠ some binaryOutcomeTag then none
  else if m.is_resolved = some true then none
  else
    match m.question with
    | none => none
    | some q =>
      let probability := m.probability.getD (1/2)
      let external_url := (m.url.or m.slug).map (fun u =>
        if u.startsWith httpScheme then u else manifoldUrlBase ++ u)
      some ⟨manifoldSourceSlug, m.id, q, probability, m.volume, external_url⟩

/-- Model of `polymarket.rs` lines 89-145: `process_market`.  Skips only records
without a question or without a non-empty external id; there is no
binary/resolved/closed check here (`active`/`closed` only go into the
metadata blob). -/
def polymarket_process_market (g : GammaMarket) : Option UpsertArgs :=
  match g.question with
  | none => none
  | some q =>
    let external_id := (g.condition_id.or g.question_id).getD emptyStr
    if external_id = emptyStr then none
    else
      let probability :=
        match g.outcome_prices with
        | some prices => prices.head?.getD (1/2)
        | none => 1/2
      let external_url := g.slug.map (fun s => polymarketEventBase ++ s)
      some ⟨polymarketSourceSlug, external_id, q, probability,
            g.volume_num, external_url⟩

def cexConditionId : String := "0xdeadbeef"

def cexQuestion : String := "Will the closed market stay closed"

/-- A Polymarket record that is closed (and inactive) at the venue. -/
def cexGamma : GammaMarket :=
  { condition_id := some cexConditionId
    question := some cexQuestion
    outcome_prices := some [13/20, 7/20]
    volume_num := none
    liquidity_num := none
    slug := none
    active := some false
    closed := some true
    question_id := none }

/-- C8 counterexample: `cexGamma` is marked closed (and not active) at the
venue, yet the Polymarket `process_market` persists it. -/
theorem C8_skip_checks_counterexample :
    cexGamma.closed = some true ∧ cexGamma.active = some false ∧
    (polymarket_process_market cexGamma).isSome = true := by
  refine ⟨rfl, rfl, ?_⟩
  decide

/-- C8 (amended): the Manifold `process_market` persists a record exactly when
its outcome type is binary, it is not resolved, and it has a question;
the Polymarket `process_market` persists a record exactly when it has a
question and a non-empty external id — resolved/closed filtering for
Polymarket (and Metaculus) happens only venue-side, via the query
parameters of the fetch URL. -/
theorem C8_per_record_filters_amended :
    (∀ m : ManifoldMarket, (manifold_process_market m).isSome ↔
      (m.outcome_type = some binaryOutcomeTag ∧ m.is_resolved ≠ some true ∧
        m.question.isSome)) ∧
    (∀ g : GammaMarket, (polymarket_process_market g).isSome ↔
      (g.question.isSome ∧
        (g.condition_id.or g.question_id).getD emptyStr ≠ emptyStr)) := by
  constructor
  · intro m
    unfold manifold_process_market
    by_cases hot : m.outcome_type = some binaryOutcomeTag
    · by_cases hres : m.is_resolved = some true
      · simp [hot, hres]
      · cases hq : m.question <;> simp [hot, hres, hq]
    · simp [hot]
  · intro g
    unfold polymarket_process_market
    cases hq : g.question with
    | none => simp [hq]
    | some q =>
      by_cases hid : (g.condition_id.or g.question_id).getD emptyStr = emptyStr
      · simp [hid]
      · simp [hid]

/- ------------------------------------------------------------------ -/
/- slug_from_title (identical in polymarket.rs 147-158,                -/
/- manifold.rs 122-133 and metaculus.rs 173-184)                       -/
/- ------------------------------------------------------------------ -/

/-- The character map of `slug_from_title`: keep alphanumerics and spaces,
turn everything else into a space. -/
def replaceNonAlnum (c : Char) : Char :=
  if c.isAlphanum || c = ' ' then c else ' '

/-- One `foldr` step of Rust `str::split_whitespace` over a char list: a
whitespace char closes the current word; any other char is prepended to it.
Empty words are dropped afterwards. -/
def splitWsStep (c : Char) (acc : List (List Char)) : List (List Char) :=
  if c.isWhitespace then [] :: acc
  else
    match acc with
    | [] => [[c]]
    | w :: ws => (c :: w) :: ws

/-- Rust `str::split_whitespace` over a char list (the words, in order). -/
def split_whitespace (s : List Char) : List (List Char) :=
  (s.foldr splitWsStep [[]]).filter (fun w => w ≠ [])

/-- Model of `slug_from_title`: lowercase, keep alphanumerics/spaces and blank the
rest, split on whitespace, join with hyphens, truncate to 200 chars.
Strings are modelled as char lists and the Rust Unicode `to_lowercase` by the
char-wise `Char.toLower` (ASCII letters, which is also all `toLower` of the
title chars that `is_alphanumeric` acts on here). -/
def slug_from_title (title : List Char) : List Char :=
  (List.intercalate ['-']
    (split_whitespace ((title.map Char.toLower).map replaceNonAlnum))).take 200

/-- Slug derivation as the spec words it (§4.2): lowercase, replace each
non-alphanumeric character with a space, collapse whitespace runs into
single hyphens, truncate to 200 characters. -/
def specSlug (title : List Char) : List Char :=
  (List.intercalate ['-']
    (split_whitespace ((title.map Char.toLower).map
      (fun c => if c.isAlphanum then c else ' ')))).take 200

/-- Two titles differing only in letter case or in (the choice of)
non-alphanumeric characters, position by position. -/
def titleCharEquiv (c1 c2 : Char) : Prop :=
  c1.toLower = c2.toLower ∨ (c1.isAlphanum = false ∧ c2.isAlphanum = false)

theorem toLower_of_not_alnum (c : Char) (h : c.isAlphanum = false) :
    c.toLower = c := by
  have hu : c.isUpper = false := by
    unfold Char.isAlphanum Char.isAlpha at h
    cases hcu : c.isUpper
    · rfl
    · rw [hcu] at h
      simp at h
  unfold Char.toLower
  rw [if_neg]
  intro hcon
  obtain ⟨h1, h2⟩ := hcon
  unfold Char.isUpper at hu
  rw [Bool.and_eq_false_iff] at hu
  have hv1 : (65 : UInt32) ≤ c.val := by
    rw [UInt32.le_def, BitVec.le_def]
    exact h1
  have hv2 : c.val ≤ (90 : UInt32) := by
    rw [UInt32.le_def, BitVec.le_def]
    exact h2
  rcases hu with hu | hu
  · simp [hv1] at hu
  · simp [hv2] at hu

theorem replaceNonAlnum_eq_specMap (c : Char) :
    replaceNonAlnum c = if c.isAlphanum then c else ' ' := by
  unfold replaceNonAlnum
  cases ha : c.isAlphanum with
  | true => simp
  | false =>
    by_cases hsp : c = ' '
    · subst hsp
      simp
    · simp [hsp]

theorem replaceNonAlnum_of_not_alnum (c : Char) (h : c.isAlphanum = false) :
    replaceNonAlnum c = ' ' := by
  rw [replaceNonAlnum_eq_specMap, if_neg (by simp [h])]

theorem mapped_chars_equal (t1 t2 : List Char)
    (h : List.Forall₂ titleCharEquiv t1 t2) :
    (t1.map Char.toLower).map replaceNonAlnum
      = (t2.map Char.toLower).map replaceNonAlnum := by
  induction h with
  | nil => rfl
  | cons hc _ ih =>
    simp only [List.map_cons, List.cons.injEq]
    refine ⟨?_, ih⟩
    rcases hc with hl | ⟨ha1, ha2⟩
    · rw [hl]
    · rw [toLower_of_not_alnum _ ha1, toLower_of_not_alnum _ ha2,
        replaceNonAlnum_of_not_alnum _ ha1, replaceNonAlnum_of_not_alnum _ ha2]

/-- C9: `slug_from_title` is exactly the lexical pipeline of the spec (lowercase,
non-alphanumerics to spaces, whitespace runs to single hyphens, truncation
to 200 chars), and any two titles that differ only in letter case or in
non-alphanumeric characters get the same slug — hence, under the same
source-tag prefix, the same unified market slug. -/
theorem C9_slug_lexical :
    (∀ title : List Char, slug_from_title title = specSlug title) ∧
    (∀ t1 t2 : List Char, List.Forall₂ titleCharEquiv t1 t2 →
      ∀ tag : List Char,
        tag ++ slug_from_title t1 = tag ++ slug_from_title t2) := by
  constructor
  · intro title
    unfold slug_from_title specSlug
    rw [show (List.map replaceNonAlnum (title.map Char.toLower))
        = (title.map Char.toLower).map (fun c => if c.isAlphanum then c else ' ')
      from List.map_congr_left (fun c _ => replaceNonAlnum_eq_specMap c)]
  · intro t1 t2 h tag
    unfold slug_from_title
    rw [mapped_chars_equal t1 t2 h]

/-- A Manifold record passing all three per-record checks. -/
def witManifold : ManifoldMarket :=
  { id := manifoldSourceSlug
    question := some cexQuestion
    url := none
    probability := some (3/5)
    volume := none
    total_liquidity := none
    is_resolved := some false
    outcome_type := some binaryOutcomeTag
    slug := none }

theorem C8_per_record_filters_amended_witness :
    ((manifold_process_market witManifold).isSome ↔
      (witManifold.outcome_type = some binaryOutcomeTag ∧
        witManifold.is_resolved ≠ some true ∧ witManifold.question.isSome)) ∧
    ((polymarket_process_market cexGamma).isSome ↔
      (cexGamma.question.isSome ∧
        (cexGamma.condition_id.or cexGamma.question_id).getD emptyStr
          ≠ emptyStr)) :=
  ⟨C8_per_record_filters_amended.1 witManifold,
   C8_per_record_filters_amended.2 cexGamma⟩

/-- Title "Will X happen?" as a char list. -/
def titleOne : List Char :=
  ['W', 'i', 'l', 'l', ' ', 'X', ' ', 'h', 'a', 'p', 'p', 'e', 'n', '?']

/-- Title "will x happen!" as a char list: same letters up to case, a
different trailing non-alphanumeric character. -/
def titleTwo : List Char :=
  ['w', 'i', 'l', 'l', ' ', 'x', ' ', 'h', 'a', 'p', 'p', 'e', 'n', '!']

/-- The `pm-` source tag as a char list. -/
def pmTag : List Char := ['p', 'm', '-']

theorem titleOne_equiv_titleTwo : List.Forall₂ titleCharEquiv titleOne titleTwo := by
  unfold titleOne titleTwo
  refine List.Forall₂.cons (Or.inl (by decide)) ?_
  refine List.Forall₂.cons (Or.inl rfl) ?_
  refine List.Forall₂.cons (Or.inl rfl) ?_
  refine List.Forall₂.cons (Or.inl rfl) ?_
  refine List.Forall₂.cons (Or.inl rfl) ?_
  refine List.Forall₂.cons (Or.inl (by decide)) ?_
  refine List.Forall₂.cons (Or.inl rfl) ?_
  refine List.Forall₂.cons (Or.inl rfl) ?_
  refine List.Forall₂.cons (Or.inl rfl) ?_
  refine List.Forall₂.cons (Or.inl rfl) ?_
  refine List.Forall₂.cons (Or.inl rfl) ?_
  refine List.Forall₂.cons (Or.inl rfl) ?_
  refine List.Forall₂.cons (Or.inl rfl) ?_
  refine List.Forall₂.cons (Or.inr ⟨by decide, by decide⟩) ?_
  exact List.Forall₂.nil

theorem C9_slug_lexical_witness :
    slug_from_title titleOne = specSlug titleOne ∧
    List.Forall₂ titleCharEquiv titleOne titleTwo ∧
    pmTag ++ slug_from_title titleOne = pmTag ++ slug_from_title titleTwo :=
  ⟨C9_slug_lexical.1 titleOne, titleOne_equiv_titleTwo,
   C9_slug_lexical.2 titleOne titleTwo titleOne_equiv_titleTwo pmTag⟩
